import Mathlib

/-!
Shallow embedding of `csv_to_iceberg.py`, a one-shot batch loader that reads a
CSV file and inserts its rows into an existing table through a database
connection.  External collaborators (the file system, the YAML/JSON parsers,
the database client, the CSV reader's field values and the date parser) are
modelled as explicit parameters; the script's own logic — config dispatch,
table-name splitting, column discovery, truncation, date coercion, row binding
and the effect sequence — is translated function by function from the source.
-/

namespace CsvToIceberg

/-- The single-quote character, used when building SQL string literals. -/
def sq : String := String.mk [Char.ofNat 39]

/-- Values occurring in a parsed configuration file (Python scalars/dicts). -/
inductive CVal where
  | str (s : String)
  | int (n : Int)
  | dict (d : List (String × CVal))
  | null

/-- A loaded configuration mapping: string keys to config values. -/
abbrev Config := List (String × CVal)

/-- First-match association lookup, modelling Python `dict.__getitem__` /
`dict.get` on a mapping with unique keys. -/
def lookupKey (d : List (String × CVal)) (k : String) : Option CVal :=
  match d with
  | [] => none
  | (k2, v) :: rest => if k2 = k then some v else lookupKey rest k

/-- Python `d.get(k, default)`. -/
def cfgGet (d : List (String × CVal)) (k : String) (dflt : CVal) : CVal :=
  (lookupKey d k).getD dflt

/-- Lower-casing a character sequence, modelling Python `str.lower()` on the
ASCII names that occur here. -/
def pyLower (l : List Char) : List Char := l.map Char.toLower

/-- The basename of a path: everything after the last path separator.
Part of the `os.path.splitext` model. -/
def afterLastSep (p : List Char) : List Char :=
  (p.reverse.takeWhile (fun c => c ≠ '/')).reverse

/-- The extension of a basename, following CPython `posixpath.splitext`:
the suffix from the last dot, provided at least one earlier character of the
basename is not a dot (so dotfiles like `.bashrc` have no extension). -/
def extOf (base : List Char) : List Char :=
  let revb := base.reverse
  let afterDotRev := revb.takeWhile (fun c => c ≠ '.')
  if afterDotRev.length = revb.length then []
  else
    let stemRev := revb.drop (afterDotRev.length + 1)
    if stemRev.all (fun c => c = '.') then []
    else '.' :: afterDotRev.reverse

/-- `os.path.splitext(p)[1]`: the extension of the path's basename. -/
def splitextExt (p : List Char) : List Char := extOf (afterLastSep p)

/-- Outcome of `load_config`: the parsed value, or one of its failure modes
(`FileNotFoundError`, a parser exception propagating, or the `ValueError`
raised for an unsupported extension, which names that extension). -/
inductive LoadOutcome where
  | ok (v : CVal)
  | notFound (path : String)
  | parseError (msg : String)
  | unsupportedFormat (ext : String)

/-- `load_config` (source lines 9–23): check existence, split the extension,
lower-case it, and dispatch: `.yaml`/`.yml` to the YAML parser, `.json` to the
JSON parser, anything else to an UnsupportedFormat error naming the extension.
The file system `fs` and the two parsers are external black boxes. -/
def load_config (fs : String → Option String)
    (yamlParse jsonParse : String → Except String CVal)
    (config_path : String) : LoadOutcome :=
  match fs config_path with
  | none => .notFound config_path
  | some content =>
    let file_ext := pyLower (splitextExt config_path.data)
    if file_ext = ".yaml".data ∨ file_ext = ".yml".data then
      match yamlParse content with
      | .ok v => .ok v
      | .error e => .parseError e
    else if file_ext = ".json".data then
      match jsonParse content with
      | .ok v => .ok v
      | .error e => .parseError e
    else .unsupportedFormat (String.mk file_ext)

/-- Python `str.split(sep)` with no maxsplit: splits at every separator. -/
def pySplit (sep : Char) : List Char → List (List Char)
  | [] => [[]]
  | c :: cs =>
    if c = sep then [] :: pySplit sep cs
    else
      match pySplit sep cs with
      | [] => [[c]]
      | p :: ps => (c :: p) :: ps

/-- `get_table_columns`, lines 28–33: if the name contains a dot, unpack
`table_name.split(a dot)` into exactly two parts — a `ValueError` escapes when
the split yields more than two parts; otherwise the schema is `None` and the
whole name is the table. -/
def splitTableName (name : List Char) : Except String (Option (List Char) × List Char) :=
  if name.contains '.' then
    match pySplit '.' name with
    | [s, t] => .ok (some s, t)
    | _ => .error "ValueError: too many values to unpack (expected 2)"
  else .ok (none, name)

/-- Line 36: the schema filter fragment; empty when the schema is `None` or
the empty string (Python truthiness of `if schema`). -/
def schemaCondition (schema : Option (List Char)) : String :=
  match schema with
  | some s => if s = [] then "" else "AND table_schema = " ++ sq ++ String.mk s ++ sq
  | none => ""

/-- Lines 37–42: the metadata query f-string, whitespace included. -/
def columnsQuery (table : List Char) (cond : String) : String :=
  "\n    SELECT column_name \n    FROM information_schema.columns \n    WHERE table_name = "
    ++ sq ++ String.mk table ++ sq ++ " " ++ cond
    ++ "\n    ORDER BY ordinal_position\n    "

/-- The metadata query `get_table_columns` sends, or the split error. -/
def buildColumnsQuery (table_name : String) : Except String String :=
  match splitTableName table_name.data with
  | .error e => .error e
  | .ok (schema, table) => .ok (columnsQuery table (schemaCondition schema))

/-- Lines 45–50: the fetched single-column rows become the column list; an
empty result raises `ValueError` (table missing and table empty are not
distinguished). -/
def columnsFromFetch (table_name : String) (fetched : List String) :
    Except String (List String) :=
  if fetched = [] then
    .error ("Table " ++ table_name ++ " not found or has no columns")
  else .ok fetched

/-- A field value inside the loaded data frame: a raw string field, a missing
value (pandas fills short CSV rows with NaN, and the inserter's own fallback
uses Python `None`; both stand for SQL null here), or a date obtained from a
successful date coercion.  The CSV reader's dtype sniffing is outside the
model: raw fields stay strings, as the spec's data model prescribes. -/
inductive Val where
  | str (s : String)
  | null
  | date (d : String)
deriving DecidableEq, Repr

/-- The result of `pd.read_csv`: a column count (taken from the header row)
and the data rows, each padded to that width. -/
structure DataFrame where
  ncols : Nat
  rows : List (List Val)
deriving DecidableEq, Repr

/-- Pad one raw CSV record to the header's width with missing values. -/
def padRow (n : Nat) (r : List String) : List Val :=
  r.map Val.str ++ List.replicate (n - r.length) Val.null

/-- `pd.read_csv` (line 59), as a black box with pinned-down shape: the header
fixes the column count, records shorter than the header are padded with
missing values, and a record longer than the header is a parse error. -/
def read_csv (header : List String) (data : List (List String)) : Option DataFrame :=
  if data.all (fun r => r.length ≤ header.length) then
    some ⟨header.length, data.map (padRow header.length)⟩
  else none

/-- The external date parser behind `pd.to_datetime(...).dt.date`: for each
raw string, either a parsed date or a failure. -/
structure DateParser where
  parse : String → Option String

/-- Date coercion of one value: strings go through the parser, missing values
coerce to missing (pandas NaT), already-coerced dates stay dates. -/
def toDate (p : DateParser) (v : Val) : Option Val :=
  match v with
  | .str s => (p.parse s).map Val.date
  | .null => some .null
  | .date d => some (.date d)

/-- All-or-nothing traversal: `pd.to_datetime` on a whole column either
converts every entry or raises. -/
def traverseOpt (f : Val → Option Val) : List Val → Option (List Val)
  | [] => some []
  | v :: vs =>
    match f v, traverseOpt f vs with
    | some w, some ws => some (w :: ws)
    | _, _ => none

/-- Column `j` of the data frame, `df[j]` (rows are rectangular, the default
is unreachable on well-formed frames). -/
def getCol (j : Nat) (rows : List (List Val)) : List Val :=
  rows.map (fun r => r.getD j Val.null)

/-- Writing column `j` back, `df[j] = c`. -/
def setCol (j : Nat) (rows : List (List Val)) (c : List Val) : List (List Val) :=
  List.zipWith (fun r v => r.set j v) rows c

/-- Lines 86–90: try to convert column `j` to dates; on any failure the
exception is swallowed and the rows are left untouched. -/
def convertDateCol (p : DateParser) (j : Nat) (rows : List (List Val)) :
    List (List Val) :=
  match traverseOpt (toDate p) (getCol j rows) with
  | some c => setCol j rows c
  | none => rows

/-- Does `pat` occur at the start of `l`? -/
def isPrefixList : List Char → List Char → Bool
  | [], _ => true
  | _ :: _, [] => false
  | a :: as, b :: bs => a = b && isPrefixList as bs

/-- Python substring test `pat in l`. -/
def containsSub (pat : List Char) : List Char → Bool
  | [] => isPrefixList pat []
  | c :: rest => isPrefixList pat (c :: rest) || containsSub pat rest

/-- Line 85's heuristic: the column name contains `"date"`, case-insensitively. -/
def isDateName (name : String) : Bool :=
  containsSub "date".data (pyLower name.data)

/-- One iteration of the loop at lines 84–90, for an (index, name) pair. -/
def convertStep (p : DateParser) (ncols : Nat) (acc : List (List Val))
    (ic : Nat × String) : List (List Val) :=
  if isDateName ic.2 ∧ ic.1 < ncols then convertDateCol p ic.1 acc else acc

/-- Lines 84–90: walk the (index, name) pairs of the bound column list and
convert each date-named column in place. -/
def convertColumns (p : DateParser) (cols : List String) (ncols : Nat)
    (rows : List (List Val)) : List (List Val) :=
  cols.enum.foldl (convertStep p ncols) rows

/-- Lines 76–78: drop excess table columns when the CSV is narrower. -/
def truncatedColumns (table_columns : List String) (ncols : Nat) : List String :=
  if table_columns.length > ncols then table_columns.take ncols else table_columns

/-- Line 93: the double-quoted, comma-separated column list. -/
def tableColumnStr (cols : List String) : String :=
  String.intercalate ", " (cols.map (fun c => "\"" ++ c ++ "\""))

/-- Line 94: one `?` placeholder per bound column. -/
def placeholderStr (cols : List String) : String :=
  String.intercalate ", " (cols.map (fun _ => "?"))

/-- Lines 102–105: the INSERT statement f-string, whitespace included. -/
def insertQuery (table_name : String) (cols : List String) : String :=
  "\n        INSERT INTO " ++ table_name ++ " (" ++ tableColumnStr cols
    ++ ")\n        VALUES (" ++ placeholderStr cols ++ ")\n        "

/-- Line 100: the bound value list for one row — `row[i]` when the index is in
range, `None` otherwise. -/
def rowValues (k : Nat) (row : List Val) : List Val :=
  (List.range k).map (fun i => if i < row.length then row.getD i Val.null else Val.null)

/-- The per-row parameter lists the inserter sends: date coercion first, then
one value list per data row (lines 84–107). -/
def boundParams (p : DateParser) (cols : List String) (ncols : Nat)
    (rows : List (List Val)) : List (List Val) :=
  (convertColumns p cols ncols rows).map (rowValues cols.length)

/-- Python `repr` of a list of plain strings, as `print` shows it. -/
def pyReprStrList (l : List String) : String :=
  "[" ++ String.intercalate ", " (l.map (fun s => sq ++ s ++ sq)) ++ "]"

/-- One observable side effect of a run, in program order. -/
inductive Effect where
  | connect (host port user catalog schema : CVal)
  | execute (query : String) (params : Option (List Val))
  | commit
  | closeCursor
  | closeConn
  | print (s : String)

/-- The effects a run performed, and the uncaught exception, if any, that
ended it. -/
abbrev RunResult := List Effect × Option String

/-- Line 56, `config.get(a trino key, an empty dict)`: an absent key yields the
empty mapping; a present non-dict value makes the later `.get` calls blow up. -/
def getTrino (config : Config) : Option (List (String × CVal)) :=
  match lookupKey config "trino" with
  | none => some []
  | some (.dict d) => some d
  | some _ => none

/-- Lines 62–68: the connection call with each parameter read from the trino
section, with its documented default. -/
def connectEffect (tc : List (String × CVal)) : Effect :=
  .connect (cfgGet tc "host" (.str "localhost"))
    (cfgGet tc "port" (.int 8080))
    (cfgGet tc "user" (.str "trino"))
    (cfgGet tc "catalog" (.str "iceberg"))
    (cfgGet tc "schema" (.str "default"))

/-- Line 77's warning text. -/
def warningPrint (ntable ncsv : Nat) : Effect :=
  .print ("Warning: Table has " ++ toString ntable
    ++ " columns but CSV only has " ++ toString ncsv ++ " columns")

/-- `insert_csv_to_iceberg` (lines 52–115) with its external collaborators
made explicit: the loaded config mapping, the raw CSV (header and records),
and the rows the metadata query fetches.  The result is the effect trace plus
the uncaught exception, if any, that aborted the run. -/
def insert_csv_to_iceberg (p : DateParser) (csv_path table_name : String)
    (config : Config) (header : List String) (data : List (List String))
    (fetched : List String) : RunResult :=
  match getTrino config with
  | none => ([], some "AttributeError: trino config section is not a mapping")
  | some tc =>
    match read_csv header data with
    | none => ([], some "pandas.errors.ParserError")
    | some df =>
      let eConn := connectEffect tc
      match buildColumnsQuery table_name with
      | .error e => ([eConn], some e)
      | .ok q =>
        match columnsFromFetch table_name fetched with
        | .error e => ([eConn, .execute q none], some e)
        | .ok table_columns0 =>
          let pUsing := Effect.print ("Using table columns: " ++ pyReprStrList table_columns0)
          let warnEffects : List Effect :=
            if table_columns0.length > df.ncols then
              [warningPrint table_columns0.length df.ncols]
            else []
          let table_columns := truncatedColumns table_columns0 df.ncols
          let q2 := insertQuery table_name table_columns
          let params := boundParams p table_columns df.ncols df.rows
          let inserts := params.map (fun ps => Effect.execute q2 (some ps))
          ([eConn, .execute q none, pUsing] ++ warnEffects ++ inserts
            ++ [.commit, .closeCursor, .closeConn,
                .print ("Data from " ++ csv_path ++ " inserted into "
                  ++ table_name ++ " successfully!"),
                .print ("Inserted " ++ toString params.length ++ " rows with "
                  ++ toString table_columns.length ++ " columns")],
           none)

/-- The parameter list of each parameterized statement execution in a trace. -/
def paramExecutions (trace : List Effect) : List (List Val) :=
  trace.filterMap (fun e =>
    match e with
    | .execute _ (some ps) => some ps
    | _ => none)

/-- Rows of a data frame are rectangular: every row has the frame's width. -/
def Rect (ncols : Nat) (rows : List (List Val)) : Prop :=
  ∀ r ∈ rows, r.length = ncols

/-- A date parser that rejects every string (concrete test double). -/
def noneParser : DateParser := ⟨fun _ => none⟩

/-- A date parser accepting exactly `2023-01-15` (concrete test double). -/
def dateParser2023 : DateParser :=
  ⟨fun s => if s = "2023-01-15" then some "2023-01-15" else none⟩

/-- A tiny file system with one YAML, one JSON and one text file. -/
def sampleFs : String → Option String :=
  fun p =>
    if p = "a.yaml" then some "cfg-y"
    else if p = "b.json" then some "cfg-j"
    else if p = "c.txt" then some "zz"
    else none

/-- A structured-data parser that returns a fixed mapping on every input. -/
def okParse (v : CVal) : String → Except String CVal := fun _ => .ok v

end CsvToIceberg

namespace CsvToIceberg

/-! ### Library lemmas about the Python string helpers -/

theorem pySplit_ne_nil (sep : Char) (l : List Char) : pySplit sep l ≠ [] := by
  induction l with
  | nil => simp [pySplit]
  | cons c cs ih =>
    simp only [pySplit]
    split
    · simp
    · cases h : pySplit sep cs with
      | nil => exact absurd h ih
      | cons p ps => simp

theorem pySplit_length (sep : Char) (l : List Char) :
    (pySplit sep l).length = l.count sep + 1 := by
  induction l with
  | nil => simp [pySplit]
  | cons c cs ih =>
    simp only [pySplit]
    split
    · rename_i hc
      subst hc
      simp [List.count_cons, ih]
    · rename_i hc
      cases h : pySplit sep cs with
      | nil => exact absurd h (pySplit_ne_nil sep cs)
      | cons p ps =>
        rw [h] at ih
        simp only [List.length_cons] at ih ⊢
        simp [List.count_cons, hc, ← ih]

theorem pySplit_count_zero (sep : Char) (l : List Char) (h : l.count sep = 0) :
    pySplit sep l = [l] := by
  induction l with
  | nil => simp [pySplit]
  | cons c cs ih =>
    rw [List.count_cons] at h
    by_cases hc : c = sep
    · subst hc; simp at h
    · have hcs : cs.count sep = 0 := by
        simp [hc] at h
        exact h
      simp [pySplit, hc, ih hcs]

theorem pySplit_count_one (sep : Char) (l : List Char) (h : l.count sep = 1) :
    pySplit sep l = [l.takeWhile (fun c => c ≠ sep),
      (l.dropWhile (fun c => c ≠ sep)).tail] := by
  induction l with
  | nil => simp at h
  | cons c cs ih =>
    rw [List.count_cons] at h
    by_cases hc : c = sep
    · subst hc
      have hcs : cs.count c = 0 := by simp at h; exact h
      simp [pySplit, pySplit_count_zero c cs hcs, List.takeWhile_cons,
        List.dropWhile_cons]
    · have hcs : cs.count sep = 1 := by simp [hc] at h; exact h
      have hps := ih hcs
      simp [pySplit, hc, hps, List.takeWhile_cons, List.dropWhile_cons]

theorem contains_eq_false_iff (l : List Char) (c : Char) :
    l.contains c = false ↔ c ∉ l := by
  rw [show l.contains c = l.elem c from rfl]
  constructor
  · intro h hm
    have := List.elem_iff.mpr hm
    rw [h] at this
    exact Bool.noConfusion this
  · intro hm
    cases he : l.elem c with
    | false => rfl
    | true => exact absurd (List.elem_iff.mp he) hm

theorem contains_eq_true_of_mem (l : List Char) (c : Char) (h : c ∈ l) :
    l.contains c = true :=
  List.elem_iff.mpr h

theorem isPrefixList_refl (l : List Char) : isPrefixList l l = true := by
  induction l with
  | nil => rfl
  | cons c cs ih => simp [isPrefixList, ih]

theorem containsSub_append_right (pat l1 l2 : List Char)
    (h : containsSub pat l2 = true) : containsSub pat (l1 ++ l2) = true := by
  induction l1 with
  | nil => simpa using h
  | cons c cs ih =>
    rw [List.cons_append]
    show (isPrefixList pat (c :: (cs ++ l2)) || containsSub pat (cs ++ l2)) = true
    rw [ih]
    simp

/-! ### C5: table-name splitting -/

/-- C5 counterexample: the claim says a name containing a dot is split on the
first dot into a schema part and a table part; on `a.b.c` the code instead
raises, because `str.split` with no maxsplit yields three parts that cannot be
unpacked into two variables. -/
theorem split_on_every_dot_counterexample :
    splitTableName ("a.b.c".data)
      = .error "ValueError: too many values to unpack (expected 2)"
    ∧ splitTableName ("a.b.c".data) ≠ .ok (some ("a".data), "b.c".data) := by
  refine ⟨rfl, ?_⟩
  intro hcontra
  have herr : splitTableName ("a.b.c".data)
      = .error "ValueError: too many values to unpack (expected 2)" := rfl
  rw [herr] at hcontra
  exact Except.noConfusion hcontra

/-- C5 (amended): a name with no dot keeps the connection's default schema; a
name with exactly one dot is split at that dot into schema and table; a name
with two or more dots makes the discoverer fail with an unpacking error. -/
theorem split_table_name_amended (name : List Char) :
    (name.count '.' = 0 → splitTableName name = .ok (none, name)) ∧
    (name.count '.' = 1 →
      splitTableName name = .ok (some (name.takeWhile (fun c => c ≠ '.')),
        (name.dropWhile (fun c => c ≠ '.')).tail)) ∧
    (2 ≤ name.count '.' → (splitTableName name).toOption = none) := by
  refine ⟨?_, ?_, ?_⟩
  · intro h
    have hnm : '.' ∉ name := List.count_eq_zero.mp h
    simp [splitTableName, hnm]
  · intro h
    have hmem : '.' ∈ name := List.count_pos_iff.mp (by omega)
    simp [splitTableName, hmem, pySplit_count_one '.' name h]
  · intro h
    have hmem : '.' ∈ name := List.count_pos_iff.mp (by omega)
    have hc : name.contains '.' = true := contains_eq_true_of_mem name '.' hmem
    have hlen := pySplit_length '.' name
    unfold splitTableName
    rw [hc]
    cases hp : pySplit '.' name with
    | nil => rw [hp] at hlen; simp at hlen
    | cons a t =>
      cases t with
      | nil => rw [hp] at hlen; simp at hlen; omega
      | cons b t2 =>
        cases t2 with
        | nil => rw [hp] at hlen; simp at hlen; omega
        | cons d t3 => simp [Except.toOption]

/-- C5 witness: a regular `schema.table` name really is split at its dot. -/
theorem split_table_name_amended_witness :
    splitTableName ("s.t".data) = .ok (some ("s".data), "t".data) := by
  have h := (split_table_name_amended ("s.t".data)).2.1 (by decide)
  simpa using h

/-! ### C6: config-loader dispatch -/

/-- C6: the loader fails with NotFound on a missing path; on an existing path
it dispatches on the lower-cased extension of `os.path.splitext` — `.yaml` and
`.yml` go to the YAML parser, `.json` to the JSON parser, and every other
extension fails with UnsupportedFormat naming that extension, no parser ever
being consulted. -/
theorem load_config_dispatch (fs : String → Option String)
    (yamlParse jsonParse : String → Except String CVal)
    (path content : String) (v : CVal) :
    (fs path = none → load_config fs yamlParse jsonParse path = .notFound path) ∧
    (fs path = some content →
      ((pyLower (splitextExt path.data) = ".yaml".data ∨
          pyLower (splitextExt path.data) = ".yml".data) →
        yamlParse content = .ok v →
        load_config fs yamlParse jsonParse path = .ok v) ∧
      (pyLower (splitextExt path.data) = ".json".data →
        jsonParse content = .ok v →
        load_config fs yamlParse jsonParse path = .ok v) ∧
      (¬ (pyLower (splitextExt path.data) = ".yaml".data ∨
          pyLower (splitextExt path.data) = ".yml".data) →
        pyLower (splitextExt path.data) ≠ ".json".data →
        load_config fs yamlParse jsonParse path
          = .unsupportedFormat (String.mk (pyLower (splitextExt path.data))))) := by
  constructor
  · intro h
    simp [load_config, h]
  · intro h
    refine ⟨?_, ?_, ?_⟩
    · intro hext hy
      simp [load_config, h, hext, hy]
    · intro hext hj
      by_cases hyaml : pyLower (splitextExt path.data) = ".yaml".data ∨
          pyLower (splitextExt path.data) = ".yml".data
      · exfalso
        rcases hyaml with h1 | h1 <;> rw [h1] at hext <;> exact absurd hext (by decide)
      · simp [load_config, h, hyaml, hext, hj]
    · intro h1 h2
      simp [load_config, h, h1, h2]

/-- C6 witness: loading the `.txt` config from the sample file system fails
with UnsupportedFormat naming `.txt`. -/
theorem load_config_dispatch_witness :
    load_config sampleFs (okParse .null) (okParse .null) "c.txt"
      = .unsupportedFormat (String.mk (pyLower (splitextExt ("c.txt").data))) := by
  have h := (load_config_dispatch sampleFs (okParse .null) (okParse .null)
    "c.txt" "zz" .null).2 rfl
  exact h.2.2 (by decide) (by decide)

/-! ### C7: schema discovery -/

/-- C7: the discoverer's query orders by the catalog's ordinal position, its
result is exactly the fetched, catalog-ordered column list, it fails precisely
when that list is empty (one error for both a missing and an empty table), and
it never returns an empty list. -/
theorem get_table_columns_spec (table_name q : String) (fetched cols : List String) :
    (fetched = [] → (columnsFromFetch table_name fetched).toOption = none) ∧
    (fetched ≠ [] → columnsFromFetch table_name fetched = .ok fetched) ∧
    (columnsFromFetch table_name fetched = .ok cols → cols ≠ []) ∧
    (buildColumnsQuery table_name = .ok q →
      containsSub ("ORDER BY ordinal_position".data) q.data = true) := by
  refine ⟨?_, ?_, ?_, ?_⟩
  · intro h; simp [columnsFromFetch, h, Except.toOption]
  · intro h; simp [columnsFromFetch, h]
  · intro h
    by_cases he : fetched = []
    · simp [columnsFromFetch, he] at h
    · simp [columnsFromFetch, he] at h
      rw [← h]; exact he
  · intro h
    unfold buildColumnsQuery at h
    cases hs : splitTableName table_name.data with
    | error e => rw [hs] at h; exact Except.noConfusion h
    | ok st =>
      rw [hs] at h
      have hq : q = columnsQuery st.2 (schemaCondition st.1) := by
        cases h; rfl
      subst hq
      unfold columnsQuery
      rw [String.data_append]
      apply containsSub_append_right
      decide

/-- C7 witness: a one-column fetch passes through unchanged and the built
query for table `t` orders by ordinal position. -/
theorem get_table_columns_spec_witness :
    columnsFromFetch "t" ["a"] = .ok ["a"] ∧
    containsSub ("ORDER BY ordinal_position".data)
      (columnsQuery ("t".data) (schemaCondition none)).data = true := by
  constructor
  · exact (get_table_columns_spec "t" "x" ["a"] ["a"]).2.1 (by decide)
  · exact (get_table_columns_spec "t" (columnsQuery ("t".data) (schemaCondition none))
      ["a"] ["a"]).2.2.2 rfl

/-! ### C8: YAML/JSON equivalence -/

/-- C8: two existing config files, one with a YAML extension and one with a
JSON extension, whose parses denote the same mapping, load to the same
mapping. -/
theorem yaml_json_equivalence (fs : String → Option String)
    (yamlParse jsonParse : String → Except String CVal)
    (p1 p2 c1 c2 : String) (m : CVal)
    (h1 : fs p1 = some c1) (h2 : fs p2 = some c2)
    (he1 : pyLower (splitextExt p1.data) = ".yaml".data ∨
      pyLower (splitextExt p1.data) = ".yml".data)
    (he2 : pyLower (splitextExt p2.data) = ".json".data)
    (hy : yamlParse c1 = .ok m) (hj : jsonParse c2 = .ok m) :
    load_config fs yamlParse jsonParse p1 = load_config fs yamlParse jsonParse p2
    ∧ load_config fs yamlParse jsonParse p1 = .ok m := by
  have hl1 : load_config fs yamlParse jsonParse p1 = .ok m := by
    simp [load_config, h1, he1, hy]
  have hnot : ¬ (pyLower (splitextExt p2.data) = ".yaml".data ∨
      pyLower (splitextExt p2.data) = ".yml".data) := by
    rw [he2]
    decide
  have hl2 : load_config fs yamlParse jsonParse p2 = .ok m := by
    simp [load_config, h2, hnot, he2, hj]
  exact ⟨hl1.trans hl2.symm, hl1⟩

theorem columnsFromFetch_ok (tn : String) (fetched : List String)
    (h : fetched ≠ []) : columnsFromFetch tn fetched = .ok fetched := by
  simp [columnsFromFetch, h]

/-- Unfolding of a run whose config section, CSV parse, name split and column
fetch all succeed: the trace is connect, metadata query, column print, the
optional truncation warning, one parameterized INSERT per data row, commit,
cursor close, connection close and the two summary prints — and no exception. -/
theorem run_ok (p : DateParser) (csv_path table_name : String) (config : Config)
    (header : List String) (data : List (List String)) (fetched : List String)
    (tc : List (String × CVal)) (df : DataFrame) (q : String)
    (hcfg : getTrino config = some tc) (hdf : read_csv header data = some df)
    (hq : buildColumnsQuery table_name = .ok q) (hf : fetched ≠ []) :
    insert_csv_to_iceberg p csv_path table_name config header data fetched =
      ([connectEffect tc, .execute q none,
        .print ("Using table columns: " ++ pyReprStrList fetched)]
        ++ (if fetched.length > df.ncols then
              [warningPrint fetched.length df.ncols] else [])
        ++ (boundParams p (truncatedColumns fetched df.ncols) df.ncols df.rows).map
             (fun ps => Effect.execute
               (insertQuery table_name (truncatedColumns fetched df.ncols)) (some ps))
        ++ [.commit, .closeCursor, .closeConn,
            .print ("Data from " ++ csv_path ++ " inserted into "
              ++ table_name ++ " successfully!"),
            .print ("Inserted "
              ++ toString (boundParams p (truncatedColumns fetched df.ncols)
                    df.ncols df.rows).length
              ++ " rows with " ++ toString (truncatedColumns fetched df.ncols).length
              ++ " columns")],
       none) := by
  unfold insert_csv_to_iceberg
  rw [hcfg, hdf, hq, columnsFromFetch_ok _ _ hf]

/-! ### C1: end-to-end trace -/

/-- C1: with a config mapping trino to host h, port 1, user u, catalog c,
schema s, discovered columns a and b for table t, and a CSV of three data rows
of two fields each, the run connects with exactly those parameters, then
executes exactly three parameterized INSERTs against t naming columns
double-quoted as a then b with one placeholder each, then commits once, then
closes the cursor, then the connection, and prints a final count of 3 rows and
2 columns. -/
theorem run_end_to_end_trace (h u c s x11 x12 x21 x22 x31 x32 : String)
    (p : DateParser) :
    insert_csv_to_iceberg p "data.csv" "t"
      [("trino", CVal.dict [("host", .str h), ("port", .int 1), ("user", .str u),
        ("catalog", .str c), ("schema", .str s)])]
      ["c1", "c2"] [[x11, x12], [x21, x22], [x31, x32]] ["a", "b"]
    = ([ .connect (.str h) (.int 1) (.str u) (.str c) (.str s),
         .execute ("\n    SELECT column_name \n    FROM information_schema.columns \n    WHERE table_name = "
           ++ sq ++ "t" ++ sq ++ " \n    ORDER BY ordinal_position\n    ") none,
         .print ("Using table columns: [" ++ sq ++ "a" ++ sq ++ ", " ++ sq ++ "b" ++ sq ++ "]"),
         .execute "\n        INSERT INTO t (\"a\", \"b\")\n        VALUES (?, ?)\n        "
           (some [.str x11, .str x12]),
         .execute "\n        INSERT INTO t (\"a\", \"b\")\n        VALUES (?, ?)\n        "
           (some [.str x21, .str x22]),
         .execute "\n        INSERT INTO t (\"a\", \"b\")\n        VALUES (?, ?)\n        "
           (some [.str x31, .str x32]),
         .commit, .closeCursor, .closeConn,
         .print "Data from data.csv inserted into t successfully!",
         .print "Inserted 3 rows with 2 columns" ], none) := by
  rw [run_ok p "data.csv" "t"
    [("trino", CVal.dict [("host", .str h), ("port", .int 1), ("user", .str u),
      ("catalog", .str c), ("schema", .str s)])]
    ["c1", "c2"] [[x11, x12], [x21, x22], [x31, x32]] ["a", "b"]
    [("host", .str h), ("port", .int 1), ("user", .str u),
      ("catalog", .str c), ("schema", .str s)]
    ⟨2, [[Val.str x11, Val.str x12], [Val.str x21, Val.str x22],
      [Val.str x31, Val.str x32]]⟩
    ("\n    SELECT column_name \n    FROM information_schema.columns \n    WHERE table_name = "
      ++ sq ++ "t" ++ sq ++ " \n    ORDER BY ordinal_position\n    ")
    rfl rfl (by rfl) (by decide)]
  dsimp only
  rw [show (boundParams p (truncatedColumns ["a", "b"] 2) 2
      [[Val.str x11, Val.str x12], [Val.str x21, Val.str x22],
        [Val.str x31, Val.str x32]]).length = 3 from rfl]
  rfl

/-! ### C9: missing trino section -/

/-- C9: when the loaded config has no top-level trino key at all, the run
still proceeds and the connection is opened with every parameter at its
default: localhost, 8080, trino, iceberg, default. -/
theorem missing_trino_key_defaults (p : DateParser) (csv_path table_name : String)
    (config : Config) (header : List String) (data : List (List String))
    (fetched : List String) (df : DataFrame)
    (hkey : lookupKey config "trino" = none)
    (hdf : read_csv header data = some df) :
    (insert_csv_to_iceberg p csv_path table_name config header data fetched).1.head?
      = some (.connect (.str "localhost") (.int 8080) (.str "trino")
          (.str "iceberg") (.str "default")) := by
  have htc : getTrino config = some [] := by simp [getTrino, hkey]
  unfold insert_csv_to_iceberg
  rw [htc, hdf]
  have hconn : connectEffect [] = .connect (.str "localhost") (.int 8080)
      (.str "trino") (.str "iceberg") (.str "default") := rfl
  cases hq : buildColumnsQuery table_name with
  | error e => simp [hconn]
  | ok q =>
    cases hf : columnsFromFetch table_name fetched with
    | error e => simp [hconn]
    | ok cols => simp [hconn]

/-- C9 witness: with an empty config mapping and a one-column CSV, the first
effect is a connection with all five defaults. -/
theorem missing_trino_key_defaults_witness :
    (insert_csv_to_iceberg noneParser "purchases.csv" "t" [] ["h"] [["1"]] ["a"]).1.head?
      = some (.connect (.str "localhost") (.int 8080) (.str "trino")
          (.str "iceberg") (.str "default")) :=
  missing_trino_key_defaults noneParser "purchases.csv" "t" [] ["h"] [["1"]] ["a"]
    ⟨1, [[Val.str "1"]]⟩ rfl rfl

/-- C8 witness: the sample YAML and JSON files, parsed to the same mapping,
load identically. -/
theorem yaml_json_equivalence_witness :
    load_config sampleFs (okParse (.dict [])) (okParse (.dict [])) "a.yaml"
      = load_config sampleFs (okParse (.dict [])) (okParse (.dict [])) "b.json" := by
  exact (yaml_json_equivalence sampleFs (okParse (.dict [])) (okParse (.dict []))
    "a.yaml" "b.json" "cfg-y" "cfg-j" (.dict []) rfl rfl (by left; decide)
    (by decide) rfl rfl).1

/-! ### Structural lemmas about the data frame and date coercion -/

theorem traverseOpt_length (f : Val → Option Val) (l l2 : List Val)
    (h : traverseOpt f l = some l2) : l2.length = l.length := by
  induction l generalizing l2 with
  | nil => simp [traverseOpt] at h; simp [← h]
  | cons v vs ih =>
    simp only [traverseOpt] at h
    cases hv : f v with
    | none => rw [hv] at h; exact absurd h (by simp)
    | some w =>
      rw [hv] at h
      cases hvs : traverseOpt f vs with
      | none => rw [hvs] at h; exact absurd h (by simp)
      | some ws =>
        rw [hvs] at h
        cases h
        simp [ih ws hvs]

theorem traverseOpt_getElem? (f : Val → Option Val) (l l2 : List Val)
    (h : traverseOpt f l = some l2) (i : Nat) : l2[i]? = (l[i]?).bind f := by
  induction l generalizing l2 i with
  | nil => simp [traverseOpt] at h; subst h; simp
  | cons v vs ih =>
    simp only [traverseOpt] at h
    cases hv : f v with
    | none => rw [hv] at h; exact absurd h (by simp)
    | some w =>
      rw [hv] at h
      cases hvs : traverseOpt f vs with
      | none => rw [hvs] at h; exact absurd h (by simp)
      | some ws =>
        rw [hvs] at h
        cases h
        cases i with
        | zero => simp [hv]
        | succ n => simp [ih ws hvs n]

theorem getCol_length (j : Nat) (rows : List (List Val)) :
    (getCol j rows).length = rows.length := by simp [getCol]

theorem getCol_getElem? (j : Nat) (rows : List (List Val)) (i : Nat) :
    (getCol j rows)[i]? = (rows[i]?).map (fun r => r.getD j Val.null) := by
  simp [getCol, List.getElem?_map]

theorem setCol_length (j : Nat) (rows : List (List Val)) (c : List Val)
    (h : c.length = rows.length) : (setCol j rows c).length = rows.length := by
  simp [setCol, List.length_zipWith, h]

theorem setCol_rect (n j : Nat) (rows : List (List Val)) (c : List Val)
    (h : Rect n rows) : Rect n (setCol j rows c) := by
  induction rows generalizing c with
  | nil => intro r hr; simp [setCol] at hr
  | cons r0 rest ih =>
    intro r hr
    cases c with
    | nil => simp [setCol] at hr
    | cons v cs =>
      simp only [setCol, List.zipWith_cons_cons, List.mem_cons] at hr
      rcases hr with hr | hr
      · rw [hr, List.length_set]
        exact h r0 (by simp)
      · exact ih cs (fun r2 h2 => h r2 (by simp [h2])) r hr

theorem getCol_setCol_self (j : Nat) (rows : List (List Val)) (c : List Val)
    (hlen : c.length = rows.length) (hj : ∀ r ∈ rows, j < r.length) :
    getCol j (setCol j rows c) = c := by
  induction rows generalizing c with
  | nil =>
    cases c with
    | nil => rfl
    | cons v cs => simp at hlen
  | cons r0 rest ih =>
    cases c with
    | nil => simp at hlen
    | cons v cs =>
      simp only [setCol, List.zipWith_cons_cons, getCol, List.map_cons]
      have h0 : j < r0.length := hj r0 (by simp)
      have hd : (r0.set j v).getD j Val.null = v := by
        simp [List.getD, List.getElem?_set_self (by simpa using h0)]
      rw [hd]
      have htail := ih cs (by simpa using hlen) (fun r2 h2 => hj r2 (by simp [h2]))
      simpa [getCol, setCol] using htail

theorem getCol_setCol_ne (i j : Nat) (hne : i ≠ j) (rows : List (List Val))
    (c : List Val) (hlen : c.length = rows.length) :
    getCol j (setCol i rows c) = getCol j rows := by
  induction rows generalizing c with
  | nil => simp [setCol]
  | cons r0 rest ih =>
    cases c with
    | nil => simp at hlen
    | cons v cs =>
      simp only [setCol, List.zipWith_cons_cons, getCol, List.map_cons]
      have hd : (r0.set i v).getD j Val.null = r0.getD j Val.null := by
        simp [List.getD, List.getElem?_set_ne hne]
      rw [hd]
      have htail := ih cs (by simpa using hlen)
      simpa [getCol, setCol] using htail

theorem convertDateCol_length (p : DateParser) (j : Nat) (rows : List (List Val)) :
    (convertDateCol p j rows).length = rows.length := by
  unfold convertDateCol
  cases ht : traverseOpt (toDate p) (getCol j rows) with
  | none => rfl
  | some c =>
    have hc : c.length = rows.length :=
      (traverseOpt_length _ _ _ ht).trans (getCol_length j rows)
    simp [setCol_length j rows c hc]

theorem convertDateCol_rect (p : DateParser) (n j : Nat) (rows : List (List Val))
    (h : Rect n rows) : Rect n (convertDateCol p j rows) := by
  unfold convertDateCol
  cases ht : traverseOpt (toDate p) (getCol j rows) with
  | none => exact h
  | some c => exact setCol_rect n j rows c h

theorem convertDateCol_getCol_self (p : DateParser) (n j : Nat)
    (rows : List (List Val)) (hrect : Rect n rows) (hj : j < n) :
    getCol j (convertDateCol p j rows) =
      (traverseOpt (toDate p) (getCol j rows)).getD (getCol j rows) := by
  unfold convertDateCol
  cases ht : traverseOpt (toDate p) (getCol j rows) with
  | none => rfl
  | some c =>
    have hc : c.length = rows.length :=
      (traverseOpt_length _ _ _ ht).trans (getCol_length j rows)
    simp [getCol_setCol_self j rows c hc (fun r hr => by rw [hrect r hr]; exact hj)]

theorem convertDateCol_getCol_ne (p : DateParser) (i j : Nat) (hne : i ≠ j)
    (rows : List (List Val)) :
    getCol j (convertDateCol p i rows) = getCol j rows := by
  unfold convertDateCol
  cases ht : traverseOpt (toDate p) (getCol i rows) with
  | none => rfl
  | some c =>
    have hc : c.length = rows.length :=
      (traverseOpt_length _ _ _ ht).trans (getCol_length i rows)
    exact getCol_setCol_ne i j hne rows c hc

theorem convertStep_length (p : DateParser) (n : Nat) (acc : List (List Val))
    (ic : Nat × String) : (convertStep p n acc ic).length = acc.length := by
  unfold convertStep
  split
  · exact convertDateCol_length p ic.1 acc
  · rfl

theorem convertStep_rect (p : DateParser) (n : Nat) (acc : List (List Val))
    (ic : Nat × String) (h : Rect n acc) : Rect n (convertStep p n acc ic) := by
  unfold convertStep
  split
  · exact convertDateCol_rect p n ic.1 acc h
  · exact h

theorem convertStep_getCol_ne (p : DateParser) (n : Nat) (acc : List (List Val))
    (ic : Nat × String) (j : Nat) (hne : ic.1 ≠ j) :
    getCol j (convertStep p n acc ic) = getCol j acc := by
  unfold convertStep
  split
  · exact convertDateCol_getCol_ne p ic.1 j hne acc
  · rfl

theorem convertFold_rect (p : DateParser) (n : Nat) (cols : List String)
    (start : Nat) (rows : List (List Val)) (h : Rect n rows) :
    Rect n ((List.enumFrom start cols).foldl (convertStep p n) rows) := by
  induction cols generalizing start rows with
  | nil => exact h
  | cons c cs ih =>
    exact ih (start + 1) _ (convertStep_rect p n rows (start, c) h)

theorem convertFold_length (p : DateParser) (n : Nat) (cols : List String)
    (start : Nat) (rows : List (List Val)) :
    ((List.enumFrom start cols).foldl (convertStep p n) rows).length = rows.length := by
  induction cols generalizing start rows with
  | nil => rfl
  | cons c cs ih =>
    exact (ih (start + 1) _).trans (convertStep_length p n rows (start, c))

theorem convertFold_getCol_lt (p : DateParser) (n : Nat) (cols : List String)
    (start j : Nat) (hj : j < start) (rows : List (List Val)) :
    getCol j ((List.enumFrom start cols).foldl (convertStep p n) rows)
      = getCol j rows := by
  induction cols generalizing start rows with
  | nil => rfl
  | cons c cs ih =>
    have h1 := ih (start + 1) (by omega) (convertStep p n rows (start, c))
    rw [List.enumFrom, List.foldl_cons, h1,
      convertStep_getCol_ne p n rows (start, c) j (by simp; omega)]

theorem convertFold_getCol (p : DateParser) (n : Nat) (cols : List String)
    (start j : Nat) (rows : List (List Val)) (hrect : Rect n rows)
    (hstart : start ≤ j) (hj : j - start < cols.length) :
    getCol j ((List.enumFrom start cols).foldl (convertStep p n) rows)
      = if isDateName (cols.getD (j - start) "") = true ∧ j < n then
          (traverseOpt (toDate p) (getCol j rows)).getD (getCol j rows)
        else getCol j rows := by
  induction cols generalizing start rows with
  | nil => simp at hj
  | cons c cs ih =>
    rw [List.enumFrom, List.foldl_cons]
    by_cases hsj : j = start
    · subst hsj
      rw [convertFold_getCol_lt p n cs (j + 1) j (by omega)]
      simp only [Nat.sub_self, List.getD_cons_zero]
      unfold convertStep
      by_cases hdj : isDateName c = true ∧ j < n
      · rw [if_pos (by simpa using hdj), if_pos hdj]
        exact convertDateCol_getCol_self p n j rows hrect hdj.2
      · rw [if_neg (by simpa using hdj), if_neg hdj]
    · have hlt : start < j := by omega
      have hstep := convertStep_getCol_ne p n rows (start, c) j (by simp; omega)
      have hrect2 := convertStep_rect p n rows (start, c) hrect
      have hrec := ih (start + 1) (convertStep p n rows (start, c)) hrect2
        (by omega) (by simp at hj ⊢; omega)
      rw [hrec, hstep]
      have hidx : j - start = (j - (start + 1)) + 1 := by omega
      rw [hidx, List.getD_cons_succ]

theorem convertColumns_rect (p : DateParser) (cols : List String) (n : Nat)
    (rows : List (List Val)) (h : Rect n rows) :
    Rect n (convertColumns p cols n rows) :=
  convertFold_rect p n cols 0 rows h

theorem convertColumns_length (p : DateParser) (cols : List String) (n : Nat)
    (rows : List (List Val)) :
    (convertColumns p cols n rows).length = rows.length :=
  convertFold_length p n cols 0 rows

theorem convertColumns_getCol (p : DateParser) (cols : List String) (n : Nat)
    (rows : List (List Val)) (j : Nat) (hrect : Rect n rows)
    (hj : j < cols.length) :
    getCol j (convertColumns p cols n rows)
      = if isDateName (cols.getD j "") = true ∧ j < n then
          (traverseOpt (toDate p) (getCol j rows)).getD (getCol j rows)
        else getCol j rows := by
  have h := convertFold_getCol p n cols 0 j rows hrect (by omega) (by omega)
  simpa using h

theorem padRow_length (n : Nat) (r : List String) (h : r.length ≤ n) :
    (padRow n r).length = n := by
  simp [padRow]
  omega

theorem read_csv_ok (header : List String) (data : List (List String))
    (df : DataFrame) (h : read_csv header data = some df) :
    df.ncols = header.length ∧ df.rows = data.map (padRow header.length)
      ∧ Rect df.ncols df.rows := by
  unfold read_csv at h
  split at h
  · rename_i hall
    cases h
    refine ⟨rfl, rfl, ?_⟩
    intro r hr
    simp only [List.mem_map] at hr
    obtain ⟨r0, hr0, hpad⟩ := hr
    rw [← hpad]
    exact padRow_length header.length r0 (by
      have := List.all_eq_true.mp hall r0 hr0
      simpa using this)
  · exact absurd h (by simp)

theorem rowValues_length (k : Nat) (row : List Val) :
    (rowValues k row).length = k := by simp [rowValues]

theorem rowValues_getElem? (k : Nat) (row : List Val) (j : Nat) (hj : j < k) :
    (rowValues k row)[j]?
      = some (if j < row.length then row.getD j Val.null else Val.null) := by
  simp [rowValues, List.getElem?_map, List.getElem?_range hj]

theorem rowValues_eq_take (k : Nat) (row : List Val) (h : k ≤ row.length) :
    rowValues k row = row.take k := by
  apply List.ext_getElem?
  intro i
  by_cases hik : i < k
  · rw [rowValues_getElem? k row i hik, List.getElem?_take]
    have hir : i < row.length := by omega
    simp [hik, hir, List.getD, List.getElem?_eq_getElem hir]
  · have h1 : (rowValues k row)[i]? = none := by
      apply List.getElem?_eq_none
      rw [rowValues_length]
      omega
    have h2 : (row.take k)[i]? = none := by
      rw [List.getElem?_take]
      simp [hik]
    rw [h1, h2]

theorem truncatedColumns_length (cols : List String) (n : Nat) :
    (truncatedColumns cols n).length = min cols.length n := by
  unfold truncatedColumns
  split <;> simp [List.length_take] <;> omega

theorem truncatedColumns_le (cols : List String) (n : Nat) :
    (truncatedColumns cols n).length ≤ n := by
  rw [truncatedColumns_length]
  omega

theorem boundParams_length (p : DateParser) (cols : List String) (n : Nat)
    (rows : List (List Val)) :
    (boundParams p cols n rows).length = rows.length := by
  simp [boundParams, convertColumns_length]

theorem boundParams_lengths (p : DateParser) (cols : List String) (n : Nat)
    (rows : List (List Val)) :
    (boundParams p cols n rows).map List.length
      = List.replicate rows.length cols.length := by
  rw [List.eq_replicate_iff]
  constructor
  · simp [boundParams, convertColumns_length]
  · intro b hb
    simp only [boundParams, List.map_map, List.mem_map] at hb
    obtain ⟨r, _, hr⟩ := hb
    rw [← hr]
    simp [rowValues_length]

/-- The parameterized executions of a successful run are exactly its bound
per-row parameter lists. -/
theorem run_paramExecutions (p : DateParser) (csv_path table_name : String)
    (config : Config) (header : List String) (data : List (List String))
    (fetched : List String) (tc : List (String × CVal)) (df : DataFrame)
    (q : String) (hcfg : getTrino config = some tc)
    (hdf : read_csv header data = some df)
    (hq : buildColumnsQuery table_name = .ok q) (hf : fetched ≠ []) :
    paramExecutions
        (insert_csv_to_iceberg p csv_path table_name config header data fetched).1
      = boundParams p (truncatedColumns fetched df.ncols) df.ncols df.rows
    ∧ (insert_csv_to_iceberg p csv_path table_name config header data fetched).2
      = none := by
  rw [run_ok p csv_path table_name config header data fetched tc df q hcfg hdf hq hf]
  refine ⟨?_, rfl⟩
  simp only [paramExecutions, List.filterMap_append, List.filterMap_map]
  have h1 : ∀ l : List (List Val),
      List.filterMap
        ((fun e => match e with
          | Effect.execute _ (some ps) => some ps
          | _ => none)
          ∘ (fun ps => Effect.execute
              (insertQuery table_name (truncatedColumns fetched df.ncols)) (some ps))) l
        = l := by
    intro l
    induction l with
    | nil => rfl
    | cons a t ih => simp only [List.filterMap_cons, Function.comp]; rw [ih]
  rw [h1]
  split <;> simp [connectEffect, warningPrint]

theorem padRow_getElem?_null (n : Nat) (r : List String) (j : Nat)
    (hj : r.length ≤ j) : ((padRow n r)[j]?).getD Val.null = Val.null := by
  simp only [padRow]
  rw [List.getElem?_append_right (by simpa using hj), List.getElem?_replicate]
  split <;> simp

/-- A missing (null) entry of a column is still missing after date coercion:
the coercion maps missing values to missing values when it fires, and leaves
the column alone when it fails. -/
theorem convert_preserves_null (p : DateParser) (cols : List String) (n : Nat)
    (rows : List (List Val)) (j t : Nat) (hrect : Rect n rows)
    (hj : j < cols.length) (hnull : (getCol j rows)[t]? = some Val.null) :
    (getCol j (convertColumns p cols n rows))[t]? = some Val.null := by
  rw [convertColumns_getCol p cols n rows j hrect hj]
  split
  · cases htr : traverseOpt (toDate p) (getCol j rows) with
    | none => simpa using hnull
    | some c =>
      simp only [Option.getD_some]
      rw [traverseOpt_getElem? _ _ _ htr t, hnull]
      rfl
  · exact hnull

theorem padRow_getElem?_str (n : Nat) (r : List String) (j : Nat)
    (hj : j < r.length) : (padRow n r)[j]? = some (Val.str (r.getD j "")) := by
  simp only [padRow]
  rw [List.getElem?_append_left (by simpa using hj), List.getElem?_map,
    List.getElem?_eq_getElem hj]
  simp [List.getD, List.get?_eq_getElem?, List.getElem?_eq_getElem hj]

/-- A column whose name is not date-like is left untouched by date coercion. -/
theorem convert_preserves_nondate (p : DateParser) (cols : List String) (n : Nat)
    (rows : List (List Val)) (j t : Nat) (v : Val) (hrect : Rect n rows)
    (hj : j < cols.length) (hnd : isDateName (cols.getD j "") = false)
    (hv : (getCol j rows)[t]? = some v) :
    (getCol j (convertColumns p cols n rows))[t]? = some v := by
  rw [convertColumns_getCol p cols n rows j hrect hj,
    if_neg (by intro hc; rw [hnd] at hc; exact Bool.noConfusion hc.1)]
  exact hv

/-- Position `j` of the `t`-th bound parameter list of a successful run reads
entry `(t, j)` of the date-coerced data frame. -/
theorem run_param_entry (p : DateParser) (csv_path table_name : String)
    (config : Config) (header : List String) (data : List (List String))
    (fetched : List String) (tc : List (String × CVal)) (df : DataFrame)
    (q : String) (hcfg : getTrino config = some tc)
    (hdf : read_csv header data = some df)
    (hq : buildColumnsQuery table_name = .ok q) (hf : fetched ≠ [])
    (t j : Nat) (v : Val) (htlen : t < data.length)
    (hj : j < (truncatedColumns fetched df.ncols).length)
    (hcv : (getCol j (convertColumns p (truncatedColumns fetched df.ncols)
      df.ncols df.rows))[t]? = some v) :
    ((paramExecutions
        (insert_csv_to_iceberg p csv_path table_name config header data
          fetched).1).getD t []).getD j (Val.str "?") = v := by
  obtain ⟨hpe, hnone⟩ := run_paramExecutions p csv_path table_name config header
    data fetched tc df q hcfg hdf hq hf
  obtain ⟨hn, hrows, hrect⟩ := read_csv_ok header data df hdf
  rw [hpe]
  have hrowslen : df.rows.length = data.length := by rw [hrows]; simp
  have hconvrect :
      Rect df.ncols
        (convertColumns p (truncatedColumns fetched df.ncols) df.ncols df.rows) :=
    convertColumns_rect p _ df.ncols df.rows hrect
  set conv := convertColumns p (truncatedColumns fetched df.ncols) df.ncols df.rows
    with hconv
  have htc : t < conv.length := by
    rw [hconv, convertColumns_length]
    omega
  have hgd : conv.getD t [] = conv[t] := by
    simp [List.getD, List.get?_eq_getElem?, List.getElem?_eq_getElem htc]
  have hrowval : (conv.getD t []).getD j Val.null = v := by
    rw [getCol_getElem?] at hcv
    rw [List.getElem?_eq_getElem htc] at hcv
    rw [Option.map_some'] at hcv
    rw [hgd]
    exact Option.some.inj hcv
  have hkn : (truncatedColumns fetched df.ncols).length ≤ df.ncols :=
    truncatedColumns_le fetched df.ncols
  have hrowlen : (conv.getD t []).length = df.ncols := by
    apply hconvrect
    rw [hgd]
    exact List.getElem_mem htc
  have hparam : (boundParams p (truncatedColumns fetched df.ncols) df.ncols
      df.rows).getD t [] = rowValues (truncatedColumns fetched df.ncols).length
        (conv.getD t []) := by
    simp only [boundParams, ← hconv, List.getD, List.get?_eq_getElem?]
    rw [List.getElem?_map, List.getElem?_eq_getElem htc]
    simp [List.getD, List.get?_eq_getElem?, List.getElem?_eq_getElem htc]
  rw [hparam]
  have hjrow : j < (conv.getD t []).length := by omega
  have hv2 := rowValues_getElem? (truncatedColumns fetched df.ncols).length
    (conv.getD t []) j hj
  have hbr : ∀ (l : List Val) (i : Nat) (d : Val), l.getD i d = (l[i]?).getD d := by
    intro l i d
    simp [List.getD, List.get?_eq_getElem?]
  rw [hbr _ j (Val.str "?"), hv2, Option.getD_some, if_pos hjrow]
  exact hrowval

/-- The exception component of a run does not depend on the date parser:
date-coercion failures are swallowed and never surface. -/
theorem run_error_independent (p p2 : DateParser) (csv_path table_name : String)
    (config : Config) (header : List String) (data : List (List String))
    (fetched : List String) :
    (insert_csv_to_iceberg p csv_path table_name config header data fetched).2
      = (insert_csv_to_iceberg p2 csv_path table_name config header data fetched).2 := by
  unfold insert_csv_to_iceberg
  cases hg : getTrino config with
  | none => rfl
  | some tc =>
    cases hdf : read_csv header data with
    | none => rfl
    | some df =>
      cases hq : buildColumnsQuery table_name with
      | error e => rfl
      | ok q =>
        cases hcf : columnsFromFetch table_name fetched with
        | error e => rfl
        | ok cols0 => rfl

/-! ### C2: bound-column count -/

/-- C2: in a run that reaches the insert loop, every parameterized execution
binds exactly min(discovered columns, CSV columns) values — one fixed count
for the whole run, one execution per data row; when the table is wider than
the CSV the column list is truncated and a warning is printed while the run
still ends without an exception, and otherwise the full discovered list is
used. -/
theorem bound_columns_min (p : DateParser) (csv_path table_name : String)
    (config : Config) (header : List String) (data : List (List String))
    (fetched : List String) (tc : List (String × CVal)) (df : DataFrame)
    (q : String) (hcfg : getTrino config = some tc)
    (hdf : read_csv header data = some df)
    (hq : buildColumnsQuery table_name = .ok q) (hf : fetched ≠ []) :
    (paramExecutions
        (insert_csv_to_iceberg p csv_path table_name config header data fetched).1).map
        List.length
      = List.replicate data.length (min fetched.length df.ncols)
    ∧ (fetched.length > df.ncols →
        warningPrint fetched.length df.ncols
          ∈ (insert_csv_to_iceberg p csv_path table_name config header data fetched).1
        ∧ (insert_csv_to_iceberg p csv_path table_name config header data fetched).2
          = none)
    ∧ (¬ fetched.length > df.ncols → truncatedColumns fetched df.ncols = fetched) := by
  obtain ⟨hpe, hnone⟩ := run_paramExecutions p csv_path table_name config header
    data fetched tc df q hcfg hdf hq hf
  obtain ⟨hn, hrows, hrect⟩ := read_csv_ok header data df hdf
  refine ⟨?_, ?_, ?_⟩
  · rw [hpe, boundParams_lengths, truncatedColumns_length]
    have hlen : df.rows.length = data.length := by rw [hrows]; simp
    rw [hlen]
  · intro hgt
    refine ⟨?_, hnone⟩
    rw [run_ok p csv_path table_name config header data fetched tc df q hcfg hdf hq hf]
    simp [hgt]
  · intro hle
    simp [truncatedColumns, hle]

/-- C2 witness: a 2-column table over a 1-column CSV binds one value per row,
prints the truncation warning, and finishes without an exception. -/
theorem bound_columns_min_witness :
    (paramExecutions
        (insert_csv_to_iceberg noneParser "purchases.csv" "t" [] ["h"] [["1"]]
          ["a", "b"]).1).map List.length
      = List.replicate 1 1
    ∧ warningPrint 2 1
        ∈ (insert_csv_to_iceberg noneParser "purchases.csv" "t" [] ["h"] [["1"]]
            ["a", "b"]).1
    ∧ (insert_csv_to_iceberg noneParser "purchases.csv" "t" [] ["h"] [["1"]]
        ["a", "b"]).2 = none := by
  have h := bound_columns_min noneParser "purchases.csv" "t" [] ["h"] [["1"]]
    ["a", "b"] [] ⟨1, [[Val.str "1"]]⟩
    (columnsQuery ("t".data) (schemaCondition none)) rfl rfl rfl (by decide)
  exact ⟨h.1, (h.2.1 (by decide)).1, (h.2.1 (by decide)).2⟩

/-! ### C3: short rows bind null -/

/-- C3: a data row shorter than the bound-column count binds null at every
missing position instead of failing: the run ends without an exception, the
row's parameter list holds null at each position at or beyond the row's own
length, and each earlier position of a non-date-named column binds the row's
raw field there. -/
theorem missing_fields_bind_null (p : DateParser) (csv_path table_name : String)
    (config : Config) (header : List String) (data : List (List String))
    (fetched : List String) (tc : List (String × CVal)) (df : DataFrame)
    (q : String) (hcfg : getTrino config = some tc)
    (hdf : read_csv header data = some df)
    (hq : buildColumnsQuery table_name = .ok q) (hf : fetched ≠ [])
    (t : Nat) (r : List String) (ht : data[t]? = some r) (j j2 : Nat) :
    (insert_csv_to_iceberg p csv_path table_name config header data fetched).2 = none
    ∧ (r.length ≤ j → j < (truncatedColumns fetched df.ncols).length →
        ((paramExecutions
            (insert_csv_to_iceberg p csv_path table_name config header data
              fetched).1).getD t []).getD j (Val.str "?")
          = Val.null)
    ∧ (j2 < r.length → j2 < (truncatedColumns fetched df.ncols).length →
        isDateName ((truncatedColumns fetched df.ncols).getD j2 "") = false →
        ((paramExecutions
            (insert_csv_to_iceberg p csv_path table_name config header data
              fetched).1).getD t []).getD j2 (Val.str "?")
          = Val.str (r.getD j2 "")) := by
  obtain ⟨hpe, hnone⟩ := run_paramExecutions p csv_path table_name config header
    data fetched tc df q hcfg hdf hq hf
  obtain ⟨hn, hrows, hrect⟩ := read_csv_ok header data df hdf
  have htlen : t < data.length := by
    by_contra hcon
    rw [List.getElem?_eq_none (by omega)] at ht
    exact Option.noConfusion ht
  refine ⟨hnone, ?_, ?_⟩
  · intro hj1 hjk
    apply run_param_entry p csv_path table_name config header data fetched tc df
      q hcfg hdf hq hf t j Val.null htlen hjk
    apply convert_preserves_null p _ df.ncols df.rows j t hrect hjk
    rw [getCol_getElem?, hrows, List.getElem?_map, ht]
    simp [List.getD, List.get?_eq_getElem?,
      padRow_getElem?_null header.length r j hj1]
  · intro hp1 hpk hnd
    apply run_param_entry p csv_path table_name config header data fetched tc df
      q hcfg hdf hq hf t j2 (Val.str (r.getD j2 "")) htlen hpk
    apply convert_preserves_nondate p _ df.ncols df.rows j2 t _ hrect hpk hnd
    rw [getCol_getElem?, hrows, List.getElem?_map, ht]
    simp [List.getD, List.get?_eq_getElem?,
      padRow_getElem?_str header.length r j2 hp1]

/-- C3 witness: the spec's own example — rows 1,A and 2 against columns id and
name — ends without an exception and binds row 2 as id 2 and name null. -/
theorem missing_fields_bind_null_witness :
    (insert_csv_to_iceberg noneParser "purchases.csv" "t" [] ["h1", "h2"]
      [["1", "A"], ["2"]] ["id", "name"]).2 = none
    ∧ ((paramExecutions
          (insert_csv_to_iceberg noneParser "purchases.csv" "t" [] ["h1", "h2"]
            [["1", "A"], ["2"]] ["id", "name"]).1).getD 1 []).getD 0 (Val.str "?")
        = Val.str "2"
    ∧ ((paramExecutions
          (insert_csv_to_iceberg noneParser "purchases.csv" "t" [] ["h1", "h2"]
            [["1", "A"], ["2"]] ["id", "name"]).1).getD 1 []).getD 1 (Val.str "?")
        = Val.null := by
  have h := missing_fields_bind_null noneParser "purchases.csv" "t" [] ["h1", "h2"]
    [["1", "A"], ["2"]] ["id", "name"] []
    ⟨2, [[Val.str "1", Val.str "A"], [Val.str "2", Val.null]]⟩
    (columnsQuery ("t".data) (schemaCondition none)) rfl rfl rfl (by decide)
    1 ["2"] rfl 1 0
  exact ⟨h.1, h.2.2 (by decide) (by decide) (by decide), h.2.1 (by decide) (by decide)⟩

/-! ### C4: best-effort date coercion -/

/-- C4: a bound table column whose name contains date (case-insensitively)
has its whole positional data column parsed: if every entry parses the column
is replaced by the parsed dates, and if any entry fails the column is left
exactly as it was; in either case the parser's failures never change the
run's exception outcome. -/
theorem date_coercion_best_effort (p p2 : DateParser) (cols : List String)
    (n : Nat) (rows : List (List Val)) (j : Nat) (csv_path table_name : String)
    (config : Config) (header : List String) (data : List (List String))
    (fetched : List String) (hrect : Rect n rows) (hj : j < cols.length)
    (hjn : j < n) (hdate : isDateName (cols.getD j "") = true) :
    getCol j (convertColumns p cols n rows)
      = (traverseOpt (toDate p) (getCol j rows)).getD (getCol j rows)
    ∧ (insert_csv_to_iceberg p csv_path table_name config header data fetched).2
      = (insert_csv_to_iceberg p2 csv_path table_name config header data fetched).2 := by
  constructor
  · rw [convertColumns_getCol p cols n rows j hrect hj, if_pos ⟨hdate, hjn⟩]
  · exact run_error_independent p p2 csv_path table_name config header data fetched

/-- C4 witness: with trade_date over a parsable value the column is coerced
to a date, and swapping in an always-failing parser leaves the run's
exception outcome unchanged. -/
theorem date_coercion_best_effort_witness :
    getCol 0 (convertColumns dateParser2023 ["trade_date"] 1 [[Val.str "2023-01-15"]])
      = (traverseOpt (toDate dateParser2023) (getCol 0 [[Val.str "2023-01-15"]])).getD
          (getCol 0 [[Val.str "2023-01-15"]])
    ∧ (insert_csv_to_iceberg dateParser2023 "f.csv" "t" [] ["c1"]
        [["2023-01-15"]] ["trade_date"]).2
      = (insert_csv_to_iceberg noneParser "f.csv" "t" [] ["c1"]
          [["2023-01-15"]] ["trade_date"]).2 := by
  exact date_coercion_best_effort dateParser2023 noneParser ["trade_date"] 1
    [[Val.str "2023-01-15"]] 0 "f.csv" "t" [] ["c1"] [["2023-01-15"]]
    ["trade_date"]
    (by intro r hr; rw [List.mem_singleton] at hr; subst hr; rfl)
    (by decide) (by decide) (by decide)

/-! ### C10: the None fallback is dead code -/

/-- C10: after truncation the bound-column count never exceeds the CSV width,
so every bound index is inside every (padded) row and the per-row value list
is a plain prefix of the row — the branch substituting None for out-of-range
positions is never taken. -/
theorem truncation_no_fallback (p : DateParser) (fetched header : List String)
    (data : List (List String)) (df : DataFrame)
    (hdf : read_csv header data = some df) :
    (truncatedColumns fetched df.ncols).length ≤ df.ncols
    ∧ boundParams p (truncatedColumns fetched df.ncols) df.ncols df.rows
        = (convertColumns p (truncatedColumns fetched df.ncols) df.ncols
            df.rows).map
            (fun r => r.take (truncatedColumns fetched df.ncols).length) := by
  obtain ⟨hn, hrows, hrect⟩ := read_csv_ok header data df hdf
  refine ⟨truncatedColumns_le fetched df.ncols, ?_⟩
  unfold boundParams
  apply List.map_congr_left
  intro r hr
  have hrl : r.length = df.ncols :=
    convertColumns_rect p _ df.ncols df.rows hrect r hr
  apply rowValues_eq_take
  rw [hrl]
  exact truncatedColumns_le fetched df.ncols

/-- C10 witness: three table columns over a two-column CSV bind the two-value
prefix of each row. -/
theorem truncation_no_fallback_witness :
    (truncatedColumns ["a", "b", "c"] 2).length ≤ 2
    ∧ boundParams noneParser (truncatedColumns ["a", "b", "c"] 2) 2
        [[Val.str "1", Val.str "2"]]
        = (convertColumns noneParser (truncatedColumns ["a", "b", "c"] 2) 2
            [[Val.str "1", Val.str "2"]]).map
            (fun r => r.take (truncatedColumns ["a", "b", "c"] 2).length) := by
  exact truncation_no_fallback noneParser ["a", "b", "c"] ["h1", "h2"]
    [["1", "2"]] ⟨2, [[Val.str "1", Val.str "2"]]⟩ rfl

end CsvToIceberg
